import Mathlib

/-!
Verification development for the CedarLogger repository: a buffering
bucket logger that persists chunks of log data to blob storage under
time-ordered keys and reconstructs the stream on read.  The Go source is
shallow-embedded below: strings are byte lists (`List Nat`), machine
state is passed explicitly, the blob-store collaborator's outcome is
injected as an explicit parameter, and Go `nil` interface values are
`Option.none`.
-/

namespace CedarLogger

/-! ## Encoding registry (encode/registry.go) -/

/-- A registered codec value: its registry name (Go `String()`) plus an
identifier distinguishing distinct codec values that share a name. -/
structure Encoding where
  name : String
  eid : Nat
deriving DecidableEq

/-- Go map lookup `r.registry[name]`, embedded over an association list.
The registry only ever inserts a name that is absent, so keys stay
unique and first-match lookup agrees with Go map semantics. -/
def regFind : List (String × Encoding) → String → Option Encoding
  | [], _ => none
  | (k, v) :: rest, nm => if k = nm then some v else regFind rest nm

/-- `encodingRegistry.Get`. -/
def registryGet (r : List (String × Encoding)) (nm : String) : Option Encoding :=
  regFind r nm

/-- `encodingRegistry.AddNew`: if the name is already present, return
without touching the registry; otherwise bind the name to the codec. -/
def registryAddNew (r : List (String × Encoding)) (e : Encoding) :
    List (String × Encoding) :=
  match regFind r e.name with
  | some _ => r
  | none => (e.name, e) :: r

/-! ## The plain_text codec (encode/defaults.go)

`textEncoding.Marshal` runs the value through `gob.NewEncoder(..).Encode`,
so the model below embeds Go's `encoding/gob` wire format for a
top-level string value: a message is its body preceded by the body's
byte length, and the body is the signed type id of `string` (6),
a zero delta byte for a singleton value, then the string's byte count
and bytes.  Unsigned integers below 128 occupy a single byte; larger
ones are a minimal big-endian byte string preceded by the negated byte
count.  A signed integer i >= 0 is carried as the unsigned value 2*i. -/

/-- Minimal big-endian byte string of a natural number (empty for 0). -/
def natBytesBE : Nat → List Nat
  | 0 => []
  | n + 1 => natBytesBE ((n + 1) / 256) ++ [(n + 1) % 256]
decreasing_by exact Nat.div_lt_self (Nat.succ_pos n) (by omega)

/-- gob encoding of an unsigned integer. -/
def gobEncodeUint (u : Nat) : List Nat :=
  if u < 128 then [u] else (256 - (natBytesBE u).length) :: natBytesBE u

/-- gob encoding of a signed integer (the sign bit is bit 0). -/
def gobEncodeInt (i : Int) : List Nat :=
  gobEncodeUint (if i < 0 then (2 * (-i - 1) + 1).toNat else (2 * i).toNat)

/-- Body of the gob message carrying one top-level string value. -/
def gobStringBody (s : List Nat) : List Nat :=
  gobEncodeInt 6 ++ [0] ++ gobEncodeUint s.length ++ s

/-- `textEncoding.Marshal` applied to a string value: the gob message
for that string (length-prefixed body), not the raw bytes. -/
def textMarshalString (s : List Nat) : List Nat :=
  gobEncodeUint (gobStringBody s).length ++ gobStringBody s

/-- The Go target passed to `textEncoding.Unmarshal`: either a pointer
to a string, or a pointer of any other type (named for the message). -/
inductive UnmarshalTarget where
  | stringTarget
  | otherTarget (typeName : String)
deriving DecidableEq

/-- `textEncoding.Unmarshal`: assigns the raw bytes into a string
target and rejects every other target type. -/
def textUnmarshal (data : List Nat) : UnmarshalTarget → Except String (List Nat)
  | .stringTarget => .ok data
  | .otherTarget t => .error ("cannot unmarshal plain text to type " ++ t)

/-! ## Key scheme (bucketLogger.newKey and getAndSortKeys) -/

/-- Decimal digits of a natural number, most significant first, exactly
as `fmt.Sprintf` with the decimal verb renders it (no padding). -/
def natDigits (n : Nat) : List Nat :=
  if h : n < 10 then [n] else natDigits (n / 10) ++ [n % 10]
decreasing_by exact Nat.div_lt_self (by omega) (by omega)

/-- The byte string `fmt.Sprintf` produces for a natural number:
its decimal digits as ASCII codes. -/
def sprintfNat (n : Nat) : List Nat := (natDigits n).map (· + 48)

/-- `bucketLogger.newKey`: the decimal nanosecond timestamp, prepended
with `pre` and a slash (byte 47) when `pre` is nonempty, and extended
with a dot (byte 46) and the extension when that is nonempty. -/
def newKey (pre : List Nat) (nowUnixNano : Nat) (ext : List Nat) : List Nat :=
  let key := sprintfNat nowUnixNano
  let key := if pre ≠ [] then pre ++ 47 :: key else key
  if ext ≠ [] then key ++ 46 :: ext else key

/-- Byte-wise lexicographic strict order on byte strings; this is the
order Go string comparison and `sort.Strings` use. -/
def strLex (l₁ l₂ : List Nat) : Prop := List.Lex (· < ·) l₁ l₂

theorem natDigits_of_lt {n : Nat} (h : n < 10) : natDigits n = [n] := by
  rw [natDigits]
  simp [h]

theorem natDigits_of_ge {n : Nat} (h : ¬n < 10) :
    natDigits n = natDigits (n / 10) ++ [n % 10] := by
  rw [natDigits]
  simp [h]

theorem natDigits_ne_nil (n : Nat) : natDigits n ≠ [] := by
  by_cases h : n < 10
  · rw [natDigits_of_lt h]; simp
  · rw [natDigits_of_ge h]; simp

/-- Appending suffixes preserves lexicographic order between lists of
equal length.  (Equal length matters: the order between a list and a
proper extension of it can be destroyed by suffixes.) -/
theorem strLex_append_of_length_eq {l₁ l₂ : List Nat} (s₁ s₂ : List Nat)
    (h : strLex l₁ l₂) (hl : l₁.length = l₂.length) :
    strLex (l₁ ++ s₁) (l₂ ++ s₂) := by
  induction h with
  | nil => simp at hl
  | @rel a₁ t₁ a₂ t₂ hr => exact List.Lex.rel hr
  | @cons a t₁ t₂ _ ih => exact List.Lex.cons (ih (by simpa using hl))

/-- Mapping a strictly monotone shift over both lists preserves
lexicographic order (used for the ASCII offset 48). -/
theorem strLex_map_add (k : Nat) {l₁ l₂ : List Nat} (h : strLex l₁ l₂) :
    strLex (l₁.map (· + k)) (l₂.map (· + k)) := by
  induction h with
  | nil => exact List.Lex.nil
  | @rel a₁ t₁ a₂ t₂ hr =>
    refine List.Lex.rel ?_
    show a₁ + k < a₂ + k
    omega
  | @cons a t₁ t₂ _ ih => exact List.Lex.cons ih

/-- Decimal digit strings of equal width compare lexicographically the
way the underlying numbers compare. -/
theorem natDigits_lex (n₂ : Nat) : ∀ n₁, n₁ < n₂ →
    (natDigits n₁).length = (natDigits n₂).length →
    strLex (natDigits n₁) (natDigits n₂) := by
  induction n₂ using Nat.strong_induction_on with
  | _ n₂ ih =>
    intro n₁ hlt hlen
    by_cases h₂ : n₂ < 10
    · have h₁ : n₁ < 10 := Nat.lt_trans hlt h₂
      rw [natDigits_of_lt h₁, natDigits_of_lt h₂]
      exact List.Lex.rel hlt
    · by_cases h₁ : n₁ < 10
      · rw [natDigits_of_lt h₁, natDigits_of_ge h₂, List.length_append] at hlen
        simp only [List.length_singleton] at hlen
        have h0 : (natDigits (n₂ / 10)).length = 0 := by omega
        exact absurd (List.length_eq_zero.mp h0) (natDigits_ne_nil _)
      · rw [natDigits_of_ge h₁, natDigits_of_ge h₂] at hlen ⊢
        have hlen' : (natDigits (n₁ / 10)).length = (natDigits (n₂ / 10)).length := by
          rw [List.length_append, List.length_append] at hlen
          simp only [List.length_singleton] at hlen
          omega
        have hq : n₁ / 10 ≤ n₂ / 10 := Nat.div_le_div_right (Nat.le_of_lt hlt)
        rcases Nat.lt_or_eq_of_le hq with hq | hq
        · exact strLex_append_of_length_eq _ _
            (ih (n₂ / 10) (Nat.div_lt_self (by omega) (by omega)) (n₁ / 10) hq hlen') hlen'
        · have hr : n₁ % 10 < n₂ % 10 := by omega
          rw [hq]
          exact List.Lex.append_left _ (List.Lex.rel hr) _

theorem sprintfNat_lex {n₁ n₂ : Nat} (hlt : n₁ < n₂)
    (hlen : (natDigits n₁).length = (natDigits n₂).length) :
    strLex (sprintfNat n₁) (sprintfNat n₂) :=
  strLex_map_add 48 (natDigits_lex n₂ n₁ hlt hlen)

/-! ## bucketReader (the read path of the bucket logger)

The reader cursor holds the sorted chunk keys, an index into them, and
the currently open chunk stream.  The blob store's `Get` is an
association of keys to chunk contents; an absent key embeds a failing
`Get`.  The open stream is modelled by its remaining bytes; the
underlying `Read` hands over as many bytes as fit and reports
end-of-data by an `EndOfStream` result on an empty stream, the ordinary
behaviour of the file and object streams the store returns. -/

/-- `bucketReader` cursor state (`keys`, `keyIdx`, `reader`);
`none` embeds a Go `nil` stream handle. -/
structure BReader where
  keys : List String
  keyIdx : Nat
  reader : Option (List Nat)
deriving DecidableEq

/-- Blob store `Get`: chunk contents by key; `none` embeds a `Get` error. -/
def bucketGet : List (String × List Nat) → String → Option (List Nat)
  | [], _ => none
  | (k, v) :: rest, nm => if k = nm then some v else bucketGet rest nm

/-- `bucketReader.getNextChunk`: close and null the current stream; if
every key is consumed, succeed leaving the stream `none`; otherwise
`Get` the chunk at `keyIdx` and advance the index.  The boolean is true
when the wrapped `Get` error is returned. -/
def getNextChunk (bkt : List (String × List Nat)) (r : BReader) : BReader × Bool :=
  let r₁ : BReader := { r with reader := none }
  if r.keyIdx = r.keys.length then (r₁, false)
  else
    match bucketGet bkt (r.keys.getD r.keyIdx "") with
    | none => (r₁, true)
    | some content =>
      ({ keys := r.keys, keyIdx := r.keyIdx + 1, reader := some content }, false)

/-- Error component of a `Read` return value. -/
inductive ReadErr where
  | noErr
  | eofErr
  | storageErr
deriving DecidableEq

/-- Result of one `bucketReader.Read` call: a returned byte count with
its error, a runtime panic (a method call on a `nil` stream handle), or
fuel exhaustion of the loop model (never reached on the traces below,
since the supplied fuel exceeds every possible iteration count). -/
inductive ReadOutcome where
  | ret (n : Nat) (e : ReadErr)
  | panicked
  | fuelOut
deriving DecidableEq

/-- The filling loop inside `bucketReader.Read`: while the caller's
buffer (capacity `plen`) has room, read from the open stream; on
end-of-data swap in the next chunk via `getNextChunk` and keep going;
break on a storage error.  When the stream handle is `nil` the method
call panics, which is exactly what the Go loop does once `getNextChunk`
exhausts the keys with buffer room left. -/
def readLoop (bkt : List (String × List Nat)) (plen : Nat) :
    Nat → Nat → BReader → ReadOutcome × BReader
  | 0, _, r => (.fuelOut, r)
  | fuel + 1, offset, r =>
    if offset < plen then
      match r.reader with
      | none => (.panicked, r)
      | some rem =>
        match rem with
        | [] =>
          let next := getNextChunk bkt r
          if next.2 then (.ret offset .storageErr, next.1)
          else readLoop bkt plen fuel offset next.1
        | _ :: _ =>
          let n := min (plen - offset) rem.length
          readLoop bkt plen fuel (offset + n) { r with reader := some (rem.drop n) }
    else (.ret offset .noErr, r)

/-- `bucketReader.Read` with a caller buffer of capacity `plen`: open
the first chunk when `keyIdx` is still 0, report `EndOfStream` when no
stream is open, then run the filling loop. -/
def bucketReaderRead (bkt : List (String × List Nat)) (r : BReader) (plen : Nat) :
    ReadOutcome × BReader :=
  let step := if r.keyIdx = 0 then getNextChunk bkt r else (r, false)
  if step.2 then (.ret 0 .storageErr, step.1)
  else if step.1.reader = none then (.ret 0 .eofErr, step.1)
  else readLoop bkt plen (plen + r.keys.length + 2) 0 step.1

/-! ## The buffered Sender (sender.go)

State and operations of the `sender` wrapper around the bucket logger.
The collaborator call `s.logger.Write` is injected through the boolean
`writeOk`; each operation reports the state it leaves behind, the error
it returns, the buffer snapshots handed to `logger.Write` (`attempts`),
how many error messages it sent to the local fallback sink, and whether
it invoked the lifecycle `cancel` function. -/

/-- One buffered structured record (sender.go / model.go). -/
structure LogLine where
  timestamp : Nat
  priority : Nat
  priorityString : String
  data : String
deriving DecidableEq

/-- The composed message handed to `Send`: priority data, raw payload,
and the length of its rendered string (`len(m.String())`), which is
what the byte-size counter accumulates. -/
structure Composer where
  priority : Nat
  priorityString : String
  raw : String
  strLen : Nat
deriving DecidableEq

/-- Mutable state of a `sender`. -/
structure SenderState where
  buffer : List LogLine
  bufferSize : Nat
  lastFlush : Nat
  closed : Bool
deriving DecidableEq

/-- Observable result of one sender operation. -/
structure OpResult where
  st : SenderState
  err : Bool
  attempts : List (List LogLine)
  localErrors : Nat
  cancelled : Bool
deriving DecidableEq

/-- `sender.flush`: one `logger.Write` of the entire buffer as one
chunk; on success clear the buffer, zero the counter and record the
flush time; on failure return the error leaving all three untouched. -/
def senderFlush (writeOk : Bool) (now : Nat) (st : SenderState) : OpResult :=
  if writeOk then
    { st := { st with buffer := [], bufferSize := 0, lastFlush := now },
      err := false, attempts := [st.buffer], localErrors := 0, cancelled := false }
  else
    { st := st, err := true, attempts := [st.buffer], localErrors := 0, cancelled := false }

/-- `sender.Flush`: return success immediately when closed, otherwise
flush unconditionally. -/
def senderFlushCall (writeOk : Bool) (now : Nat) (st : SenderState) : OpResult :=
  if st.closed then { st := st, err := false, attempts := [], localErrors := 0, cancelled := false }
  else senderFlush writeOk now st

/-- `sender.Send`: drop the message when it does not clear the level
threshold; report to the fallback sink and return when closed;
otherwise append a `LogLine`, grow the byte counter by the rendered
length, and flush synchronously once the counter meets the maximum
buffer size (reporting a flush failure to the fallback sink).  `Send`
itself returns no error. -/
def senderSend (shouldLog : Bool) (m : Composer) (writeOk : Bool)
    (now maxBufferSize : Nat) (st : SenderState) : OpResult :=
  if ¬shouldLog then
    { st := st, err := false, attempts := [], localErrors := 0, cancelled := false }
  else if st.closed then
    { st := st, err := false, attempts := [], localErrors := 1, cancelled := false }
  else
    let st₁ : SenderState :=
      { st with buffer := st.buffer ++ [⟨now, m.priority, m.priorityString, m.raw⟩],
                bufferSize := st.bufferSize + m.strLen }
    if maxBufferSize ≤ st₁.bufferSize then
      let r := senderFlush writeOk now st₁
      if r.err then { r with err := false, localErrors := 1 }
      else { r with err := false }
    else
      { st := st₁, err := false, attempts := [], localErrors := 0, cancelled := false }

/-- `sender.Close`: `cancel` is deferred, so it runs on every call; a
closed sender returns immediately with no error; otherwise mark the
sender closed, and when the buffer is nonempty flush it, reporting a
failure to the fallback sink and returning the wrapped error. -/
def senderClose (writeOk : Bool) (now : Nat) (st : SenderState) : OpResult :=
  if st.closed then
    { st := st, err := false, attempts := [], localErrors := 0, cancelled := true }
  else
    let st₁ : SenderState := { st with closed := true }
    if st₁.buffer = [] then
      { st := st₁, err := false, attempts := [], localErrors := 0, cancelled := true }
    else
      let r := senderFlush writeOk now st₁
      if r.err then { r with localErrors := 1, cancelled := true }
      else { r with cancelled := true }

/-! ## Periodic flush wiring (NewSender and the bucket logger options) -/

/-- The default flush interval (one minute) in nanoseconds. -/
def defaultFlushInterval : Int := 60000000000

/-- `NewSender` starts the `timedFlush` goroutine exactly when the
configured `FlushInterval` is positive; `options.Sender` applies no
default to the interval. -/
def senderStartsTimedFlush (flushInterval : Int) : Bool :=
  decide (0 < flushInterval)

/-- `BucketLoggerOptions.validate` replaces a `FlushInterval` of
exactly 0 with the one-minute default. -/
def bucketLoggerValidateFlushInterval (flushInterval : Int) : Int :=
  if flushInterval = 0 then defaultFlushInterval else flushInterval

/-- `NewBucketLoggerWithContext` validates the options and then starts
`timedFlush` exactly when the resulting interval is positive. -/
def bucketLoggerStartsTimedFlush (flushInterval : Int) : Bool :=
  decide (0 < bucketLoggerValidateFlushInterval flushInterval)

/-! ## The FollowFile loop (bucketLogger.FollowFile)

One iteration of the `for { select { ... } }` loop.  The three events
are a new line from the follower, a value on the caller's `Exit`
channel, and context cancellation.  In Go, `break` inside `select`
exits only the `select` statement and not the enclosing `for`; the loop
body contains no labeled break and no return, so every case resumes the
loop.  `LoopOutcome.exitLoop` is the outcome a loop-terminating
statement would produce; the translation shows no case produces it. -/

/-- Loop-local state: the line buffer, the number of errors the catcher
has accumulated, and the chunks successfully written via `WriteBytes`. -/
structure FollowState where
  buffer : List Nat
  errCount : Nat
  writes : List (List Nat)
deriving DecidableEq

/-- The events the `select` can wake on; a line event carries the
outcome of the `WriteBytes` call it may trigger. -/
inductive FollowEvent where
  | line (bs : List Nat) (writeOk : Bool)
  | exitSignal
  | ctxDone
deriving DecidableEq

/-- Outcome of one loop iteration: resume the loop or leave it. -/
inductive LoopOutcome where
  | nextIter (st : FollowState)
  | exitLoop (st : FollowState)
deriving DecidableEq

/-- One `select` iteration of the FollowFile loop.  A line is appended
to the buffer; once the buffer reaches `maxBufferSize` the buffer is
written out, a failure is added to the catcher, and the buffer is
cleared only when the catcher holds no error.  The `Exit` and
context-done cases run their `break`, which leaves the `select` only,
so every case yields `nextIter`. -/
def followSelect (maxBufferSize : Nat) (st : FollowState) :
    FollowEvent → LoopOutcome
  | .line bs writeOk =>
    let b := st.buffer ++ bs
    if maxBufferSize ≤ b.length then
      let st₁ : FollowState :=
        { buffer := b
          errCount := st.errCount + (if writeOk then 0 else 1)
          writes := st.writes ++ (if writeOk then [b] else []) }
      if st₁.errCount ≠ 0 then .nextIter st₁
      else .nextIter { st₁ with buffer := [] }
    else .nextIter { st with buffer := b }
  | .exitSignal => .nextIter st
  | .ctxDone => .nextIter { st with errCount := st.errCount + 1 }

/-- Run the FollowFile loop over a sequence of events: `some` is the
loop still running with the given state, `none` means the loop exited
and `FollowFile` went on to return. -/
def followRun (maxBufferSize : Nat) : FollowState → List FollowEvent → Option FollowState
  | st, [] => some st
  | st, ev :: evs =>
    match followSelect maxBufferSize st ev with
    | .nextIter st' => followRun maxBufferSize st' evs
    | .exitLoop _ => none

/-- Every case of the FollowFile select resumes the loop. -/
theorem followSelect_always_resumes (maxBufferSize : Nat) (st : FollowState)
    (ev : FollowEvent) : ∃ st', followSelect maxBufferSize st ev = .nextIter st' := by
  cases ev with
  | line bs writeOk =>
    unfold followSelect
    dsimp only
    repeat' split
    all_goals exact ⟨_, rfl⟩
  | exitSignal => exact ⟨st, rfl⟩
  | ctxDone => exact ⟨_, rfl⟩

/-! ## Claims -/

/-- C1: the claim that a `Read` consuming past the final chunk's
end-of-data returns the bytes read plus `EndOfStream` fails on the
code: on a store holding the single chunk `abc` under key `k`, a `Read`
with a 4-byte buffer transparently drains the chunk, `getNextChunk`
nulls the stream handle at key exhaustion, and the loop then calls
`Read` on the nil handle and panics.  `EndOfStream` is produced only
when no stream is open on entry (here: an empty key list), and a read
that fills its buffer exactly returns without error. -/
theorem bucketReader_read_past_end_panics :
    (bucketReaderRead [("k", [97, 98, 99])] ⟨["k"], 0, none⟩ 4).1 = .panicked
    ∧ (bucketReaderRead [("k", [97, 98, 99])] ⟨["k"], 0, none⟩ 3).1 = .ret 3 .noErr
    ∧ (bucketReaderRead [] ⟨[], 0, none⟩ 1).1 = .ret 0 .eofErr := by
  exact ⟨rfl, rfl, rfl⟩

/-- C2: `plain_text` marshal is not an identity byte copy: the code
gob-encodes the value, so the one-byte string `a` (byte 97) marshals to
the five-byte gob message `[4, 12, 0, 1, 97]`.  The unmarshal half of
the claim does hold: a string target receives the raw bytes and every
other target is rejected with the unsupported-target error. -/
theorem textMarshal_gob_not_identity :
    textMarshalString [97] = [4, 12, 0, 1, 97]
    ∧ textMarshalString [97] ≠ [97]
    ∧ (∀ d, textUnmarshal d .stringTarget = .ok d)
    ∧ (∀ d t, textUnmarshal d (.otherTarget t)
        = .error ("cannot unmarshal plain text to type " ++ t)) := by
  refine ⟨rfl, by decide, fun d => rfl, fun d t => rfl⟩

/-- C3 counterexample: `Flush` on an open writer whose buffer is empty
is not a no-op — it still hands the (empty) buffer to `logger.Write`,
producing a storage Put of one chunk. -/
theorem flush_empty_buffer_writes :
    (senderFlushCall true 1 ⟨[], 0, 0, false⟩).attempts = [[]]
    ∧ ([[]] : List (List LogLine)) ≠ [] := by
  exact ⟨rfl, by simp⟩

/-- C3 amended: `Flush` is a no-op returning success when the writer is
already closed; on an open writer it always performs the storage write
of the whole buffer as one chunk, including when the buffer is empty. -/
theorem flush_closed_noop_open_always_writes (writeOk : Bool) (now : Nat)
    (st : SenderState) :
    (st.closed = true →
      senderFlushCall writeOk now st
        = { st := st, err := false, attempts := [], localErrors := 0, cancelled := false })
    ∧ (st.closed = false →
      (senderFlushCall writeOk now st).attempts = [st.buffer]) := by
  constructor
  · intro h
    simp [senderFlushCall, h]
  · intro h
    cases writeOk <;> simp [senderFlushCall, senderFlush, h]

/-- C3 witness: the amended claim instantiated on a closed writer. -/
theorem flush_closed_noop_witness :
    (⟨[], 0, 0, true⟩ : SenderState).closed = true
    ∧ senderFlushCall true 1 ⟨[], 0, 0, true⟩
        = { st := ⟨[], 0, 0, true⟩, err := false, attempts := [], localErrors := 0,
            cancelled := false } :=
  ⟨rfl, (flush_closed_noop_open_always_writes true 1 ⟨[], 0, 0, true⟩).1 rfl⟩

/-- C4: the follow loop of `FollowFile` never terminates: no event —
the `Exit` channel firing and context cancellation included — leaves
the loop, because the `break` statements exit only the `select`.  The
accumulated error is therefore never returned (the statement after the
loop is unreachable). -/
theorem followFile_loop_never_exits (maxBufferSize : Nat) (st : FollowState)
    (evs : List FollowEvent) :
    (followRun maxBufferSize st evs).isSome = true
    ∧ followSelect maxBufferSize st .exitSignal = .nextIter st := by
  refine ⟨?_, rfl⟩
  induction evs generalizing st with
  | nil => rfl
  | cons ev evs ih =>
    obtain ⟨st', hst⟩ := followSelect_always_resumes maxBufferSize st ev
    simp only [followRun, hst]
    exact ih st'

/-- C5 counterexample: keys generated at timestamps 9 and then 10 under
prefix `p` with extension `txt` sort lexicographically in the reverse
of chronological order — the later key precedes the earlier one. -/
theorem newKey_sort_counterexample :
    strLex (newKey [112] 10 [116, 120, 116]) (newKey [112] 9 [116, 120, 116]) := by
  have h10 : natDigits 10 = [1, 0] := by
    rw [natDigits_of_ge (by omega)]
    norm_num
    rw [natDigits_of_lt (by omega)]
    rfl
  have h9 : natDigits 9 = [9] := natDigits_of_lt (by omega)
  simp only [newKey, sprintfNat, h10, h9, List.map_cons, List.map_nil]
  norm_num
  exact List.Lex.cons (List.Lex.cons (List.Lex.rel (by omega)))

/-- C5 amended: lexicographic order of generated keys recovers
chronological order whenever the two timestamps render to the same
number of decimal digits (prefix and extension being those of the same
logger); the unpadded decimal rendering makes this digit-width
condition necessary, as the counterexample shows. -/
theorem newKey_lex_of_same_width (pre ext : List Nat) (t₁ t₂ : Nat)
    (hlt : t₁ < t₂) (hlen : (natDigits t₁).length = (natDigits t₂).length) :
    strLex (newKey pre t₁ ext) (newKey pre t₂ ext) := by
  have hd := sprintfNat_lex hlt hlen
  have hdl : (sprintfNat t₁).length = (sprintfNat t₂).length := by
    simp [sprintfNat, hlen]
  by_cases hp : pre = [] <;> by_cases he : ext = [] <;>
    simp only [newKey, hp, he, ne_eq, not_true_eq_false, not_false_eq_true,
      if_true, if_false, ite_true, ite_false]
  · exact hd
  · exact strLex_append_of_length_eq _ _ hd hdl
  · exact List.Lex.append_left _ (List.Lex.cons hd) _
  · rw [List.append_assoc, List.append_assoc]
    exact List.Lex.append_left _
      (List.Lex.cons (strLex_append_of_length_eq _ _ hd hdl)) _

/-- C5 witness: the amended claim at timestamps 5 and 7 (equal digit
width) under prefix `p`. -/
theorem newKey_lex_of_same_width_witness :
    5 < 7 ∧ (natDigits 5).length = (natDigits 7).length
    ∧ strLex (newKey [112] 5 []) (newKey [112] 7 []) := by
  have h5 : natDigits 5 = [5] := natDigits_of_lt (by omega)
  have h7 : natDigits 7 = [7] := natDigits_of_lt (by omega)
  refine ⟨by omega, ?_, ?_⟩
  · rw [h5, h7]
    rfl
  · exact newKey_lex_of_same_width [112] [] 5 7 (by omega) (by rw [h5, h7]; rfl)

/-- C6: a failing flush returns the error and leaves the buffer, the
byte-size counter and the last-flush timestamp unchanged, so a later
flush retries the same data; a successful flush clears the buffer,
zeroes the counter and records the flush time. -/
theorem flush_failure_preserves_buffer (now : Nat) (st : SenderState) :
    senderFlush false now st
      = { st := st, err := true, attempts := [st.buffer], localErrors := 0,
          cancelled := false }
    ∧ senderFlush true now st
      = { st := { st with buffer := [], bufferSize := 0, lastFlush := now },
          err := false, attempts := [st.buffer], localErrors := 0,
          cancelled := false } := by
  exact ⟨rfl, rfl⟩

/-- C7: `Close` is idempotent.  The first call on an open sender marks
it closed and cancels the periodic-flush task; with a nonempty buffer
it flushes exactly that buffer, and a flush failure is returned while
the sender still transitions to closed (the buffer surviving intact);
any subsequent call returns immediately with no error, no flush and no
fallback report. -/
theorem close_idempotent (writeOk writeOk₂ : Bool) (now now₂ : Nat)
    (st : SenderState) (h : st.closed = false) :
    ((senderClose writeOk now st).st.closed = true)
    ∧ ((senderClose writeOk now st).cancelled = true)
    ∧ (st.buffer ≠ [] → (senderClose writeOk now st).attempts = [st.buffer])
    ∧ (st.buffer ≠ [] → writeOk = false →
        (senderClose writeOk now st).err = true
        ∧ (senderClose writeOk now st).st.buffer = st.buffer)
    ∧ (st.buffer = [] → (senderClose writeOk now st).attempts = []
        ∧ (senderClose writeOk now st).err = false)
    ∧ senderClose writeOk₂ now₂ (senderClose writeOk now st).st
        = { st := (senderClose writeOk now st).st, err := false, attempts := [],
            localErrors := 0, cancelled := true } := by
  cases hb : st.buffer with
  | nil => cases writeOk <;> simp [senderClose, senderFlush, h, hb]
  | cons a t => cases writeOk <;> simp [senderClose, senderFlush, h, hb]

/-- C7 witness: the idempotent-close behaviour on an open sender with
one buffered line whose final flush fails. -/
theorem close_idempotent_witness :
    (⟨[⟨0, 0, "", ""⟩], 4, 0, false⟩ : SenderState).closed = false
    ∧ (((senderClose false 1 ⟨[⟨0, 0, "", ""⟩], 4, 0, false⟩).st.closed = true)
      ∧ ((senderClose false 1 ⟨[⟨0, 0, "", ""⟩], 4, 0, false⟩).cancelled = true)
      ∧ ((⟨[⟨0, 0, "", ""⟩], 4, 0, false⟩ : SenderState).buffer ≠ [] →
          (senderClose false 1 ⟨[⟨0, 0, "", ""⟩], 4, 0, false⟩).attempts
            = [(⟨[⟨0, 0, "", ""⟩], 4, 0, false⟩ : SenderState).buffer])
      ∧ ((⟨[⟨0, 0, "", ""⟩], 4, 0, false⟩ : SenderState).buffer ≠ [] → false = false →
          (senderClose false 1 ⟨[⟨0, 0, "", ""⟩], 4, 0, false⟩).err = true
          ∧ (senderClose false 1 ⟨[⟨0, 0, "", ""⟩], 4, 0, false⟩).st.buffer
              = (⟨[⟨0, 0, "", ""⟩], 4, 0, false⟩ : SenderState).buffer)
      ∧ ((⟨[⟨0, 0, "", ""⟩], 4, 0, false⟩ : SenderState).buffer = [] →
          (senderClose false 1 ⟨[⟨0, 0, "", ""⟩], 4, 0, false⟩).attempts = []
          ∧ (senderClose false 1 ⟨[⟨0, 0, "", ""⟩], 4, 0, false⟩).err = false)
      ∧ senderClose true 2 (senderClose false 1 ⟨[⟨0, 0, "", ""⟩], 4, 0, false⟩).st
          = { st := (senderClose false 1 ⟨[⟨0, 0, "", ""⟩], 4, 0, false⟩).st,
              err := false, attempts := [], localErrors := 0, cancelled := true }) :=
  ⟨rfl, close_idempotent false true 1 2 ⟨[⟨0, 0, "", ""⟩], 4, 0, false⟩ rfl⟩

/-- C8: `Send` on a closed sender (for a message clearing the level
threshold) reports the closed-writer error to the fallback sink,
performs no storage write, and leaves the state — buffer and byte-size
counter included — unchanged. -/
theorem send_after_close_rejected (m : Composer) (writeOk : Bool)
    (now maxBufferSize : Nat) (st : SenderState) (h : st.closed = true) :
    senderSend true m writeOk now maxBufferSize st
      = { st := st, err := false, attempts := [], localErrors := 1,
          cancelled := false } := by
  simp [senderSend, h]

/-- C8 witness: the post-close rejection at a concrete message and state. -/
theorem send_after_close_rejected_witness :
    (⟨[], 0, 0, true⟩ : SenderState).closed = true
    ∧ senderSend true ⟨0, "", "", 3⟩ true 5 10 ⟨[], 0, 0, true⟩
        = { st := ⟨[], 0, 0, true⟩, err := false, attempts := [], localErrors := 1,
            cancelled := false } :=
  ⟨rfl, send_after_close_rejected ⟨0, "", "", 3⟩ true 5 10 ⟨[], 0, 0, true⟩ rfl⟩

/-- C9 counterexample: a bucket logger constructed with a flush
interval of exactly 0 — a non-positive interval — does start the
periodic-flush task, because `validate` replaces 0 with the one-minute
default; the sender constructor, by contrast, leaves 0 disabled. -/
theorem zero_interval_starts_timed_flush :
    bucketLoggerStartsTimedFlush 0 = true
    ∧ senderStartsTimedFlush 0 = false := by
  exact ⟨rfl, rfl⟩

/-- C9 amended: a negative flush interval disables the periodic-flush
task for both constructors, and an interval of 0 disables it for the
sender; only the bucket-logger constructor turns 0 into the default
interval and starts the task. -/
theorem negative_interval_disables_timed_flush (i : Int) (h : i < 0) :
    senderStartsTimedFlush i = false
    ∧ bucketLoggerStartsTimedFlush i = false
    ∧ senderStartsTimedFlush 0 = false := by
  refine ⟨?_, ?_, rfl⟩
  · simp only [senderStartsTimedFlush, decide_eq_false_iff_not]
    omega
  · simp only [bucketLoggerStartsTimedFlush, bucketLoggerValidateFlushInterval,
      if_neg (show ¬i = 0 by omega), decide_eq_false_iff_not]
    omega

/-- C9 witness: the amended claim at interval -1. -/
theorem negative_interval_disables_timed_flush_witness :
    (-1 : Int) < 0
    ∧ senderStartsTimedFlush (-1) = false
    ∧ bucketLoggerStartsTimedFlush (-1) = false
    ∧ senderStartsTimedFlush 0 = false :=
  ⟨by decide, negative_interval_disables_timed_flush (-1) (by decide)⟩

/-- C10 counterexample: on a registry that already binds the name, the
claim as stated fails — after `AddNew e1` then `AddNew e2` under the
shared name, `Get` returns the original binding, not `e1`. -/
theorem addNew_prefilled_counterexample :
    registryGet (registryAddNew (registryAddNew [("n", ⟨"n", 0⟩)] ⟨"n", 1⟩) ⟨"n", 2⟩) "n"
      = some ⟨"n", 0⟩
    ∧ some (⟨"n", 0⟩ : Encoding) ≠ some (⟨"n", 1⟩ : Encoding) := by
  exact ⟨rfl, by simp⟩

/-- C10 amended: `AddNew` never overwrites: an existing binding always
survives a later `AddNew` under the same name; and when the name is not
yet registered, `AddNew e1` followed by `AddNew e2` under the same name
leaves `Get` returning `e1` — the first registration of a name wins. -/
theorem addNew_first_registration_wins (r : List (String × Encoding))
    (e₁ e₂ : Encoding) (hname : e₂.name = e₁.name)
    (hfresh : registryGet r e₁.name = none) :
    registryGet (registryAddNew (registryAddNew r e₁) e₂) e₁.name = some e₁
    ∧ (∀ nm v e, registryGet r nm = some v →
        registryGet (registryAddNew r e) nm = some v) := by
  constructor
  · have hf : regFind r e₁.name = none := hfresh
    unfold registryAddNew
    rw [hf]
    simp only [regFind, hname, if_pos rfl]
    unfold registryGet
    simp [regFind]
  · intro nm v e hsome
    unfold registryAddNew
    cases hf : regFind r e.name with
    | some w => exact hsome
    | none =>
      have hne : ¬e.name = nm := by
        intro hEq
        rw [hEq] at hf
        unfold registryGet at hsome
        rw [hf] at hsome
        cases hsome
      unfold registryGet at hsome ⊢
      simp only [regFind, if_neg hne]
      exact hsome

/-- C10 witness: the amended claim on the empty registry. -/
theorem addNew_first_registration_wins_witness :
    (⟨"m", 2⟩ : Encoding).name = (⟨"m", 1⟩ : Encoding).name
    ∧ registryGet ([] : List (String × Encoding)) (⟨"m", 1⟩ : Encoding).name = none
    ∧ registryGet (registryAddNew (registryAddNew [] ⟨"m", 1⟩) ⟨"m", 2⟩) "m"
        = some ⟨"m", 1⟩ :=
  ⟨rfl, rfl,
    (addNew_first_registration_wins [] ⟨"m", 1⟩ ⟨"m", 2⟩ rfl rfl).1⟩

end CedarLogger
